import Mathlib

/-!
Shallow embedding of the flame license-database engine
(`src/python/flame/license_db.py`) and proofs about the claims of its
specification.

The engine's definition tables (aliases, operators, compatibility map, dual
licenses, ambiguity table) are loaded from JSON files on disk; the spec
declares this loading out of scope, so here they are parameters of an `Env`
record, given as association lists in Python-dict insertion order.  The two
external capabilities — the boolean license-expression grammar
(`license_expression.parse` / `.validate`) and the OSADL compatibility matrix
(`osadl_matrix.supported_licenses`) — are likewise fields of `Env`.

Python strings are modelled as `String` (a structure over `List Char`); the
hand-built regular expressions of the source are embedded as explicit
scanners over `List Char` whose branch order mirrors the order of the regex
alternations they translate.
-/

namespace Flame

/-- Python's `\s` class for `str` patterns: space, tab, newline, carriage
return, vertical tab, form feed. -/
def isPyWs (c : Char) : Bool :=
  c = ' ' || c = '\t' || c = '\n' || c = '\r' || c = '\x0b' || c = '\x0c'

/-- Python `str.strip()` (ASCII whitespace cases, which is all the engine
ever produces). -/
def pyStripList (s : List Char) : List Char :=
  ((s.dropWhile isPyWs).reverse.dropWhile isPyWs).reverse

/-- Python `str.strip()` on `String`. -/
def pyStrip (s : String) : String := ⟨pyStripList s.data⟩

/-- Embedding of `re.sub` with a pattern of the shape `X X*` for a character
class `p` and replacement `" "`: every maximal run of `p`-characters becomes
one space.  Used for `re.sub(r'\s\s*', ' ', _)` and `re.sub(' [ ]*', ' ', _)`. -/
def collapseRuns (p : Char → Bool) : List Char → List Char
  | [] => []
  | [c] => if p c then [' '] else [c]
  | c₁ :: c₂ :: rest =>
    if p c₁ && p c₂ then collapseRuns p (c₂ :: rest)
    else (if p c₁ then ' ' else c₁) :: collapseRuns p (c₂ :: rest)

/-- `re.sub(' [ ]*', ' ', s)`: collapse runs of spaces (line 445 / line 164). -/
def collapseSpaces (s : String) : String := ⟨collapseRuns (· = ' ') s.data⟩

/-- `re.sub(r'\s\s*', ' ', s)`: collapse runs of whitespace. -/
def collapseWs (s : String) : String := ⟨collapseRuns isPyWs s.data⟩

/-- Python `pat in s` for strings: substring containment. -/
def containsSubstr (pat : List Char) : List Char → Bool
  | [] => pat.isEmpty
  | c :: rest => pat.isPrefixOf (c :: rest) || containsSubstr pat rest

/-- Python `str.lower()` (ASCII cases). -/
def pyLower (s : String) : String := ⟨s.data.map Char.toLower⟩

/-- Worker for `str.replace`: replace every non-overlapping occurrence of
`needle`, scanning left to right.  The fuel starts at the text length; each
step consumes at least one character when `needle` is nonempty, so the fuel
never runs out on the guarded calls below. -/
def pyReplaceGo (needle repl : List Char) : Nat → List Char → List Char
  | 0, s => s
  | _ + 1, [] => []
  | fuel + 1, c :: rest =>
    if needle.isPrefixOf (c :: rest) then
      repl ++ pyReplaceGo needle repl fuel ((c :: rest).drop needle.length)
    else
      c :: pyReplaceGo needle repl fuel rest

/-- Python `s.replace(needle, repl)`.  The engine only ever calls it with a
nonempty needle, so the empty-needle case is mapped to the identity. -/
def pyReplace (s needle repl : String) : String :=
  if needle.data.isEmpty then s
  else ⟨pyReplaceGo needle.data repl.data s.data.length s.data⟩

/-- Worker for `str.replace` limited to the first occurrence (used only by
the claim-side reading of the dual-license expander, not by the code). -/
def pyReplaceFirstGo (needle repl : List Char) : Nat → List Char → List Char
  | 0, s => s
  | _ + 1, [] => []
  | fuel + 1, c :: rest =>
    if needle.isPrefixOf (c :: rest) then
      repl ++ (c :: rest).drop needle.length
    else
      c :: pyReplaceFirstGo needle repl fuel rest

/-- Replace only the first occurrence of `needle` in `s`. -/
def pyReplaceFirst (s needle repl : String) : String :=
  if needle.data.isEmpty then s
  else ⟨pyReplaceFirstGo needle.data repl.data s.data.length s.data⟩

/-- Worker for Python `str.split()` with no argument: split on runs of
whitespace, dropping empty pieces.  `cur` is the current token, reversed. -/
def pySplitWsGo (cur : List Char) : List Char → List (List Char)
  | [] => if cur.isEmpty then [] else [cur.reverse]
  | c :: rest =>
    if isPyWs c then
      if cur.isEmpty then pySplitWsGo [] rest
      else cur.reverse :: pySplitWsGo [] rest
    else pySplitWsGo (c :: cur) rest

/-- `lic.strip().split()[0]` for a piece whose strip is nonempty: the first
whitespace-delimited token. -/
def firstToken (s : String) : String := ⟨(pySplitWsGo [] s.data).headD []⟩

/-- Insert into a list that is ascending by key length, after any key of
equal length: combined with `foldr`, this reproduces the stable ascending
sort `sorted(needles.items(), key=lambda x: len(x[0]))`. -/
def insertByLen {α : Type} (x : String × α) : List (String × α) → List (String × α)
  | [] => [x]
  | y :: ys => if y.1.length < x.1.length then y :: insertByLen x ys else x :: y :: ys

/-- Stable sort of a table's items, ascending by key length. -/
def sortAscByLen {α : Type} (l : List (String × α)) : List (String × α) :=
  l.foldr insertByLen []

/-- `reversed(collections.OrderedDict(sorted(needles.items(), key=lambda x:
len(x[0]))))` (lines 255, 291, 463, 692): the table's items in descending
order of key length, ties in reverse insertion order. -/
def sortDescByLen {α : Type} (l : List (String × α)) : List (String × α) :=
  (sortAscByLen l).reverse

/-- First-match lookup in an association list (Python dict read `m[k]` /
`m.get(k)` for duplicate-free tables). -/
def assocLookup {α : Type} : List (String × α) → String → Option α
  | [], _ => none
  | (k₁, v) :: rest, k => if k₁ = k then some v else assocLookup rest k

/-- Python dict assignment `m[k] = v`: overwrite in place if the key exists,
else append. -/
def dictInsert {α : Type} : List (String × α) → String → α → List (String × α)
  | [], k, v => [(k, v)]
  | (k₁, v₁) :: rest, k, v =>
    if k₁ = k then (k₁, v) :: rest else (k₁, v₁) :: dictInsert rest k v

/-!
## The token rewriter's boundary regex

`__init_needles` (lines 252-264) compiles, for each needle,

* `( |>|\(|^|\)|\||/)NEEDLE( |<|$|\)|\||&)`, or with `allow_letter`
* `( |>|\(|^|\)|\||\/|[a-zA-Z0-9])NEEDLE( |<|$|\)|\||&|[a-zA-Z0-9])`.

The alternation is ordered; `^` sits between `\(` and `\)`, so the
single-character alternatives before it are tried first, then the
zero-width start anchor, then the remaining single-character alternatives.
`$` matches at the end of the string or just before one final newline.
-/

/-- Leading-boundary alternatives tried before the `^` anchor. -/
def isB1Pre (c : Char) : Bool := c = ' ' || c = '>' || c = '('

/-- Leading-boundary alternatives tried after the `^` anchor. -/
def isB1Post (allowLetter : Bool) (c : Char) : Bool :=
  c = ')' || c = '|' || c = '/' || (allowLetter && (c.isAlpha || c.isDigit))

/-- Trailing-boundary character class `( |<|$|\)|\||&)` without the `$` case. -/
def isB2Char (allowLetter : Bool) (c : Char) : Bool :=
  c = ' ' || c = '<' || c = ')' || c = '|' || c = '&' ||
    (allowLetter && (c.isAlpha || c.isDigit))

/-- Match the trailing-boundary group at the current position: a boundary
character, or `$` (end of string, or just before one final newline).
Returns the captured group and the remaining text. -/
def checkB2 (allowLetter : Bool) : List Char → Option (List Char × List Char)
  | [] => some ([], [])
  | c :: rest =>
    if isB2Char allowLetter c then some ([c], rest)
    else if c = '\n' && rest.isEmpty then some ([], [c])
    else none

/-- Try to match `(B1)NEEDLE(B2)` anchored at the current position,
honouring the alternation order of the compiled pattern.  `atStart` is true
only at position 0, where the `^` alternative can fire with an empty
capture.  Returns `(captured B1, captured B2, text after the match)`. -/
def tryNeedleMatch (needle : List Char) (allowLetter atStart : Bool)
    (text : List Char) : Option (List Char × List Char × List Char) :=
  let tryChar : (Char → Bool) → Option (List Char × List Char × List Char) :=
    fun p =>
      match text with
      | [] => none
      | c :: t₁ =>
        if p c && needle.isPrefixOf t₁ then
          match checkB2 allowLetter (t₁.drop needle.length) with
          | some (b₂, rest) => some ([c], b₂, rest)
          | none => none
        else none
  match tryChar isB1Pre with
  | some m => some m
  | none =>
    match
      (if atStart && needle.isPrefixOf text then
        match checkB2 allowLetter (text.drop needle.length) with
        | some (b₂, rest) => some (([] : List Char), b₂, rest)
        | none => none
      else none) with
    | some m => some m
    | none => tryChar (isB1Post allowLetter)

/-- `regexp.search`: does the compiled boundary pattern match anywhere?
Positions are scanned left to right; only position 0 has `atStart`. -/
def pySearchGo (needle : List Char) (allowLetter : Bool) :
    Bool → List Char → Bool
  | atStart, [] => (tryNeedleMatch needle allowLetter atStart []).isSome
  | atStart, c :: rest =>
    (tryNeedleMatch needle allowLetter atStart (c :: rest)).isSome ||
      pySearchGo needle allowLetter false rest

/-- `regexp.search(text)` as a boolean (the source only tests truthiness). -/
def pySearch (needle : String) (allowLetter : Bool) (text : String) : Bool :=
  pySearchGo needle.data allowLetter true text.data

/-- `regexp.sub(f'\\1 {replacement} \\2', text)` (line 280; `extra_add` is
reassigned to a space on line 279, so both paddings are single spaces):
replace every non-overlapping match left to right, resuming after each
match.  Fueled by the text length: every step consumes at least one
character when the needle is nonempty, which holds for every table key. -/
def pySubGo (needle repl : List Char) (allowLetter : Bool) :
    Nat → Bool → List Char → List Char
  | 0, _, text => text
  | fuel + 1, atStart, text =>
    match tryNeedleMatch needle allowLetter atStart text with
    | some (b₁, b₂, rest) =>
      b₁ ++ [' '] ++ repl ++ [' '] ++ b₂ ++ pySubGo needle repl allowLetter fuel false rest
    | none =>
      match text with
      | [] => []
      | c :: rest => c :: pySubGo needle repl allowLetter fuel false rest

/-- `regexp.sub` on `String`. -/
def pySubAll (needle repl : String) (allowLetter : Bool) (text : String) : String :=
  ⟨pySubGo needle.data repl.data allowLetter (text.data.length + 1) true text.data⟩

/-- One identification event (`IdentificationEvent` of the spec;
the dicts built on lines 246-250 and 300-304). -/
structure Identification where
  queried_name : String
  name : String
  identified_via : String
deriving DecidableEq, Repr

/-- Result of one token-rewriting pass (`__update_license_expression_helper`). -/
structure HelperResult where
  license_expression : String
  identifications : List Identification
deriving DecidableEq, Repr

/-- `__update_license_expression_helper` (lines 266-286).  The compiled
needle list is the table in descending key-length order; for each needle in
that order, if its boundary pattern matches, every occurrence is replaced by
the mapped value padded with single spaces; finally whitespace runs are
collapsed and the ends stripped.  The local `replacements` list is created
(line 267) and returned (line 285) but never appended to, so the
`identifications` of the result are always empty.  (`__init_needles` caches
the compiled list per needle tag in `self.needles_map`; each tag is always
used with the same table and flag, so the cache is semantically transparent
and the compilation is modelled as a pure function.) -/
def updateLicenseExpressionHelper (needles : List (String × String))
    (_needleTag : String) (licenseExpression : String) (allowLetter : Bool) :
    HelperResult :=
  let replacements : List Identification := []
  let compiled := sortDescByLen needles
  let result := compiled.foldl
    (fun expr cn =>
      if pySearch cn.1 allowLetter expr then pySubAll cn.1 cn.2 allowLetter expr
      else expr)
    licenseExpression
  { license_expression := pyStrip (collapseWs result),
    identifications := replacements }

/-!
## Dual-license expansion (`__update_or_later`, lines 311-341)
-/

/-- `re.split(LICENSE_SPLIT_RE, s)` with `LICENSE_SPLIT_RE =
r'( AND | OR |\(|\))'`: because the group captures, the delimiters appear in
the output between the (possibly empty) pieces.  Alternatives are tried in
pattern order at each position, leftmost first. -/
def splitLicenseGo (cur : List Char) : List Char → List (List Char)
  | [] => [cur.reverse]
  | ' ' :: 'A' :: 'N' :: 'D' :: ' ' :: rest =>
    cur.reverse :: [' ', 'A', 'N', 'D', ' '] :: splitLicenseGo [] rest
  | ' ' :: 'O' :: 'R' :: ' ' :: rest =>
    cur.reverse :: [' ', 'O', 'R', ' '] :: splitLicenseGo [] rest
  | '(' :: rest => cur.reverse :: ['('] :: splitLicenseGo [] rest
  | ')' :: rest => cur.reverse :: [')'] :: splitLicenseGo [] rest
  | c :: rest => splitLicenseGo (c :: cur) rest

/-- The pieces (fragments and captured delimiters) of a license expression. -/
def splitLicense (s : String) : List String :=
  (splitLicenseGo [] s.data).map (⟨·⟩)

/-- One recorded dual expansion (`DualExpansionEvent`; the dict built on
lines 326-331, whose keys `license-expression` and `updated-license` are
spelled with underscores here). -/
structure DualUpdate where
  license_expression : String
  license : String
  updates : List String
  updated_license : String
deriving DecidableEq, Repr

/-- Result of `__update_or_later`. -/
structure OrLaterResult where
  input_license_expression : String
  license_expression : String
  updates : List DualUpdate
deriving DecidableEq, Repr

/-- Lines 320-325: one variant per newer-version id, `lic.replace(trimmed,
newer)` (every occurrence), interleaved with `OR` and joined by single
spaces, wrapped in a padded parenthesis group. -/
def expandDualPiece (newerList : List String) (lic trimmed : String) : String :=
  let innerNew := newerList.foldl
    (fun acc newer =>
      if acc.isEmpty then [pyReplace lic trimmed newer]
      else acc ++ ["OR", pyReplace lic trimmed newer])
    []
  " ( " ++ String.intercalate " " innerNew ++ " ) "

/-- One iteration of the `__update_or_later` loop (lines 314-335): skip a
piece that strips to nothing; expand a piece whose leading token has a
duals entry, recording an update; keep every other piece verbatim. -/
def orLaterStep (duals : List (String × List String))
    (acc : List String × List DualUpdate) (lic : String) :
    List String × List DualUpdate :=
  if pyStrip lic = "" then acc
  else
    match assocLookup duals (firstToken (pyStrip lic)) with
    | some newerList =>
      (acc.1 ++ [expandDualPiece newerList lic (firstToken (pyStrip lic))],
       acc.2 ++ [{ license_expression := lic, license := firstToken (pyStrip lic),
                   updates := newerList,
                   updated_license := expandDualPiece newerList lic (firstToken (pyStrip lic)) }])
    | none => (acc.1 ++ [lic], acc.2)

/-- `__update_or_later`: walk the split pieces in order and rejoin the
processed pieces with single spaces. -/
def updateOrLater (duals : List (String × List String)) (licenseExpression : String) :
    OrLaterResult :=
  let res := (splitLicense licenseExpression).foldl (orLaterStep duals) ([], [])
  { input_license_expression := licenseExpression,
    license_expression := String.intercalate " " res.1,
    updates := res.2 }

/-!
## Ambiguity detection (lines 175-188 and 458-484)
-/

/-- One entry of the ambiguity table: id → problem text and trigger aliases. -/
structure AmbigEntry where
  problem : String
  aliases : List String
deriving DecidableEq, Repr

/-- One reported ambiguity (`AmbiguityFinding`; the dict of lines 479-484). -/
structure Ambiguity where
  license : String
  ambigous_license : String
  problem : String
  description : String
deriving DecidableEq, Repr

/-- The reverse index alias → ambiguous id built at load time (lines
181-187): for each table entry, each of its aliases maps to the id, and the
id maps to itself; insertions follow Python dict-update semantics. -/
def ambigAliasMap (ambiguities : List (String × AmbigEntry)) : List (String × String) :=
  ambiguities.foldl
    (fun m kv => dictInsert (kv.2.aliases.foldl (fun m₂ a => dictInsert m₂ a kv.1) m) kv.1 kv.1)
    []

/-- The `(?:\s+|$)` part of the ambiguity pattern: end of string, or at
least one whitespace character follows. -/
def ambigAfterOk : List Char → Bool
  | [] => true
  | c :: _ => isPyWs c

/-- The `\s+` branch of `(?:\s+|^)X(?:\s+|$)`: some position has a
whitespace character immediately before an occurrence of `x` that is
followed by whitespace or the end. -/
def ambigSearchGo (x : List Char) : List Char → Bool
  | [] => false
  | c :: rest =>
    (isPyWs c && x.isPrefixOf rest && ambigAfterOk (rest.drop x.length)) ||
      ambigSearchGo x rest

/-- `re.search(r'(?:\s+|^)X(?:\s+|$)', text)` as a boolean. -/
def ambigSearch (x : List Char) (text : List Char) : Bool :=
  (x.isPrefixOf text && ambigAfterOk (text.drop x.length)) || ambigSearchGo x text

/-- Build one `AmbiguityFinding` for a matched alias (lines 473-484): the
expression snapshot, the canonical id from the reverse index, the stored
problem text, and the composed description (which names the alias when it
differs from the id). -/
def mkAmbiguity (aliasMap : List (String × String))
    (ambiguities : List (String × AmbigEntry)) (expr aliasName : String) : Ambiguity :=
  let realLic := (assocLookup aliasMap aliasName).getD ""
  let about :=
    if aliasName ≠ realLic then
      "An ambiguity was identified in \"" ++ expr ++
        "\". The ambiguous license is \"" ++ realLic ++
        "\", identified via \"" ++ aliasName ++ "\"."
    else
      "An ambiguity was identified in \"" ++ expr ++
        "\". The ambiguous license is \"" ++ realLic ++ "\"."
  let problem := ((assocLookup ambiguities realLic).map AmbigEntry.problem).getD ""
  { license := expr, ambigous_license := realLic, problem := problem,
    description := about ++ " Problem: " ++ problem }

/-- The ambiguity scan of `expression_license` (lines 458-484): iterate the
reverse index in descending alias-length order; for each alias, search for
the alias (with any literal `" or "` inside it rewritten to `" OR "` by
line 471, which rebuilds `needle_fixed` from the raw pattern and thereby
discards the operator-helper call of lines 466-470) delimited by whitespace
or the string ends; on a hit, append a finding.  The expression itself is
never modified. -/
def ambiguityFindings (ambiguities : List (String × AmbigEntry)) (expr : String) :
    List Ambiguity :=
  (sortDescByLen (ambigAliasMap ambiguities)).foldl
    (fun acc av =>
      if ambigSearch (pyReplace av.1 " or " " OR ").data expr.data then
        acc ++ [mkAmbiguity (ambigAliasMap ambiguities) ambiguities expr av.1]
      else acc)
    []

/-!
## Validation engine (lines 829-905) and external capabilities
-/

/-- The four validation modes (the `Validation` enum, lines 55-59). -/
inductive Validation where
  | RELAXED
  | SPDX
  | OSADL
  | SCANCODE
deriving DecidableEq, Repr

/-- Python `repr` of a `Validation` member, as it appears inside the
f-string cache keys. -/
def pyReprValidation : Validation → String
  | .RELAXED => "<Validation.RELAXED: 1>"
  | .SPDX => "<Validation.SPDX: 2>"
  | .OSADL => "<Validation.OSADL: 3>"
  | .SCANCODE => "<Validation.SCANCODE: 4>"

/-- `f'{validations}'` for the `validations` argument (a list or `None`). -/
def pyReprVal : Option (List Validation) → String
  | none => "None"
  | some vs => "[" ++ String.intercalate ", " (vs.map pyReprValidation) ++ "]"

/-- `f'{update_dual}'`. -/
def pyBool : Bool → String
  | true => "True"
  | false => "False"

/-- `__license_list` (lines 903-905): `re.split('AND|OR|WITH', expr)` —
plain substring split, no word boundaries, alternatives in that order. -/
def licenseListGo (cur : List Char) : List Char → List (List Char)
  | [] => [cur.reverse]
  | 'A' :: 'N' :: 'D' :: rest => cur.reverse :: licenseListGo [] rest
  | 'O' :: 'R' :: rest => cur.reverse :: licenseListGo [] rest
  | 'W' :: 'I' :: 'T' :: 'H' :: rest => cur.reverse :: licenseListGo [] rest
  | c :: rest => licenseListGo (c :: cur) rest

/-- `__license_list` on `String`. -/
def licenseList (expr : String) : List String :=
  (licenseListGo [] expr.data).map (⟨·⟩)

/-- `re.split('\\(|OR|AND|\\)', expr)` used by the OSADL branch of
`__validate_license` (line 839): delimiters are dropped. -/
def splitCompatGo (cur : List Char) : List Char → List (List Char)
  | [] => [cur.reverse]
  | '(' :: rest => cur.reverse :: splitCompatGo [] rest
  | 'O' :: 'R' :: rest => cur.reverse :: splitCompatGo [] rest
  | 'A' :: 'N' :: 'D' :: rest => cur.reverse :: splitCompatGo [] rest
  | ')' :: rest => cur.reverse :: splitCompatGo [] rest
  | c :: rest => splitCompatGo (c :: cur) rest

/-- Support table entry for one token (lines 850-853). -/
structure CompatSupportEntry where
  license : String
  supported : Bool
deriving DecidableEq, Repr

/-- Per-token support table plus overall flag (`__validate_compatibilities_support`). -/
structure CompatSupport where
  licenses : List CompatSupportEntry
  supported : Bool
deriving DecidableEq, Repr

/-- The errors raised by the engine (`FlameException`), carrying the data
the source interpolates into its messages. -/
inductive FlameErr where
  | wrongType (tyName : String) (shown : String)
  | parseCombined (queried : String) (ambiguities : List Ambiguity) (problem : String)
  | spdxInvalid (expr : String) (missing : List String)
  | scancodeInvalid (expr : String) (errors : List String)
  | relaxedMultiWord (lic : String)
  | osadlUnsupported (support : CompatSupport)
deriving DecidableEq, Repr

/-- The result dict of `expression_license` (lines 526-534). -/
structure LicenseResult where
  queried_license : String
  identified_license : String
  identifications : List Identification
  ambiguities : List Ambiguity
  updated_license : String
  license_parsed : String
  updates : List DualUpdate
deriving DecidableEq, Repr

/-- The result dict of `expression_compatibility_as` (lines 817-825). -/
structure CompatResult where
  ambiguities : List Ambiguity
  compatibilities : List Identification
  queried_license : String
  identification : LicenseResult
  identified_license : String
  compat_license : String
  compat_support : CompatSupport
deriving DecidableEq, Repr

/-- The mutable state of a `FossLicenses` instance after construction:
the two memoization maps, the lazily fetched OSADL set (`support_licenses`,
assigned on line 861), and the never-assigned `supported_licenses`
(line 97).  `fetches` counts the calls made to the external
`osadl_matrix.supported_licenses` capability (instrumentation only; no
source field corresponds to it). -/
structure FlameState where
  license_cache : List (String × LicenseResult)
  compat_cache : List (String × CompatResult)
  support_licenses : Option (List String)
  supported_licenses : Option (List String)
  fetches : Nat
deriving DecidableEq, Repr

/-- The state right after `__init__` (lines 96-100). -/
def initialState : FlameState :=
  { license_cache := [], compat_cache := [], support_licenses := none,
    supported_licenses := none, fetches := 0 }

/-- A Python argument that may fail the `isinstance(_, str)` check of line
441: either a string, or a non-string carrying its type name and its
`str()` rendering (used by the f-string cache key of
`expression_compatibility_as`, which is built before any type check). -/
inductive PyInput where
  | str (s : String)
  | nonStr (tyName : String) (shown : String)
deriving DecidableEq, Repr

/-- `f'{license_expression}'` on the raw argument. -/
def pyStr : PyInput → String
  | .str s => s
  | .nonStr _ shown => shown

/-- The immutable collaborators of the engine: the definition tables (in
dict insertion order) and the two external capabilities. -/
structure Env where
  aliases : List (String × String)
  operators : List (String × String)
  compats : List (String × String)
  duals : List (String × List String)
  ambiguities : List (String × AmbigEntry)
  parse : String → Except String String
  scancodeErrors : String → List String
  spdx : List String
  osadl : List String

/-- `__validate_compatibility_support` (lines 859-862).  The guard tests
Python truthiness of `self.supported_licenses`; in the then-branch the
fetched set is assigned to the differently named `self.support_licenses`
and membership is tested against it.  The else-branch reads whatever
`support_licenses` holds (reaching it with the field unset would be an
`AttributeError` in Python, but it requires `supported_licenses` to be
truthy, which never happens; `getD []` stands in for that unreachable
read). -/
def validateCompatibilitySupport (env : Env) (st : FlameState) (lic : String) :
    Bool × FlameState :=
  let falsy :=
    match st.supported_licenses with
    | none => true
    | some l => l.isEmpty
  if falsy then
    let st₁ := { st with support_licenses := some env.osadl, fetches := st.fetches + 1 }
    (env.osadl.contains lic, st₁)
  else
    ((st.support_licenses.getD []).contains lic, st)

/-- Worker for `__validate_compatibilities_support`: entries in input
order, overall flag the conjunction. -/
def vcssGo (env : Env) : List String → FlameState →
    List CompatSupportEntry × Bool × FlameState
  | [], st => ([], true, st)
  | lic :: rest, st =>
    let r₁ := validateCompatibilitySupport env st lic
    let r₂ := vcssGo env rest r₁.2
    ({ license := lic, supported := r₁.1 } :: r₂.1, r₁.1 && r₂.2.1, r₂.2.2)

/-- `__validate_compatibilities_support` (lines 844-857). -/
def validateCompatibilitiesSupport (env : Env) (st : FlameState)
    (lics : List String) : CompatSupport × FlameState :=
  let r := vcssGo env lics st
  ({ licenses := r.1, supported := r.2.1 }, r.2.2)

/-- `__validate_license_spdx` (lines 864-877): collect the split tokens
that are neither in the SPDX set nor contain "exception" case-insensitively;
fail with the list when nonempty. -/
def validateLicenseSpdx (env : Env) (expr : String) : Except FlameErr Unit :=
  let missing := (licenseList expr).foldl
    (fun acc piece =>
      let lic := pyStrip piece
      if env.spdx.contains lic || containsSubstr "exception".data (pyLower lic).data then
        acc
      else acc ++ [lic])
    []
  if missing.isEmpty then .ok () else .error (.spdxInvalid expr missing)

/-- `__validate_license_scancode` (lines 879-885): delegate to the external
structural validator; fail when it reports errors. -/
def validateLicenseScancode (env : Env) (expr : String) : Except FlameErr Unit :=
  let errors := env.scancodeErrors expr
  if errors.isEmpty then .ok () else .error (.scancodeInvalid expr errors)

/-- The loop body of `__validate_license_relaxed`: raise at the first
stripped token containing a space. -/
def relaxedGo : List String → Except FlameErr Unit
  | [] => .ok ()
  | piece :: rest =>
    if containsSubstr [' '] (pyStrip piece).data then
      .error (.relaxedMultiWord (pyStrip piece))
    else relaxedGo rest

/-- `__validate_license_relaxed` (lines 887-894). -/
def validateLicenseRelaxed (expr : String) : Except FlameErr Unit :=
  relaxedGo (licenseList expr)

/-!
## Orchestrator (`expression_license`, `expression_compatibility_as`,
`__validate_license`)

`__validate_license` with `Validation.OSADL` calls
`expression_compatibility_as(license_expression)` with its default
arguments `validations=None, update_dual=True`; a call with
`validations=None` never validates again, so the recursion is one level
deep and is stratified here: the two entry points are defined generically
over the validator (and, for the compatibility entry point, over the
normalization function), then instantiated first with the trivial
validator (the `validations=None` behaviour of `if validations:`) and
finally with the full `validateLicense`.
-/

/-- The memoization key `f'{q}__{validations}__{update_dual}'` (lines 447
and 798), for an already rendered `validations`. -/
def licKey (q valStr : String) (dual : Bool) : String :=
  q ++ "__" ++ valStr ++ "__" ++ pyBool dual

/-- `expression_license` (lines 441-536), generic in the validator used at
line 513.  Steps: reject non-strings; collapse blank runs; consult the
cache; alias pass; ambiguity scan on the alias-rewritten text; operator
pass (letter boundaries allowed); optional dual expansion; external parse
with the pre-parse text kept as fallback on failure; validation; an
unconditional raise when the parse failed, combining the pending
ambiguities with the parse problem; otherwise assemble and memoize the
result. -/
def expressionLicenseAux
    (validator : FlameState → String → Except FlameErr Unit × FlameState)
    (env : Env) (st : FlameState) (input : PyInput) (valStr : String)
    (dual : Bool) : Except FlameErr LicenseResult × FlameState :=
  match input with
  | .nonStr ty shown => (.error (.wrongType ty shown), st)
  | .str raw =>
    let licenseExpression := collapseSpaces raw
    let cacheKey := licKey licenseExpression valStr dual
    match assocLookup st.license_cache cacheKey with
    | some cached => (.ok cached, st)
    | none =>
      let aliasRes := updateLicenseExpressionHelper env.aliases "alias" licenseExpression false
      let ambiguities := ambiguityFindings env.ambiguities aliasRes.license_expression
      let opRes :=
        updateLicenseExpressionHelper env.operators "operator" aliasRes.license_expression true
      let replacements := aliasRes.identifications ++ opRes.identifications
      let parsed :=
        if dual then
          let uo := updateOrLater env.duals opRes.license_expression
          match env.parse uo.license_expression with
          | .ok p => (none, p, uo.updates)
          | .error e =>
            (some ("Could not parse \"" ++ uo.license_expression ++ "\". Exception: " ++ e),
             uo.license_expression, uo.updates)
        else
          match env.parse opRes.license_expression with
          | .ok p => (none, p, ([] : List DualUpdate))
          | .error e =>
            (some ("Could not parse \"ret[\"license_expression\"]\". Exception: " ++ e),
             opRes.license_expression, ([] : List DualUpdate))
      let updateProblem : Option String := parsed.1
      let licenseParsed : String := parsed.2.1
      let updates : List DualUpdate := parsed.2.2
      match validator st licenseParsed with
      | (.error e, st₁) => (.error e, st₁)
      | (.ok _, st₁) =>
        match updateProblem with
        | some problem =>
          (.error (.parseCombined licenseExpression ambiguities problem), st₁)
        | none =>
          let ret : LicenseResult :=
            { queried_license := licenseExpression,
              identified_license := licenseParsed,
              identifications := replacements,
              ambiguities := ambiguities,
              updated_license := licenseParsed,
              license_parsed := licenseParsed,
              updates := updates }
          (.ok ret, { st₁ with license_cache := dictInsert st₁.license_cache cacheKey ret })

/-- `expression_compatibility_as` (lines 784-827), generic in the
normalization call (line 802) and the validator (line 815).  The cache key
renders the raw argument before any type check; after normalization the
identified license is rewritten against the compatibility table, the
rewritten text is split into tokens and their OSADL support aggregated,
validation runs on the compatibility expression, and the result is
memoized. -/
def expressionCompatAux
    (exprLic : FlameState → PyInput → Except FlameErr LicenseResult × FlameState)
    (validator : FlameState → String → Except FlameErr Unit × FlameState)
    (env : Env) (st : FlameState) (input : PyInput) (valStr : String)
    (dual : Bool) : Except FlameErr CompatResult × FlameState :=
  let cacheKey := licKey (pyStr input) valStr dual
  match assocLookup st.compat_cache cacheKey with
  | some cached => (.ok cached, st)
  | none =>
    match exprLic st input with
    | (.error e, st₁) => (.error e, st₁)
    | (.ok full, st₁) =>
      let r := updateLicenseExpressionHelper env.compats "compat" full.identified_license false
      let compatLicenseExpression := pyStrip (collapseWs r.license_expression)
      let compatLicenses :=
        ((splitLicense compatLicenseExpression).map pyStrip).filter (· ≠ "")
      let sup := validateCompatibilitiesSupport env st₁ compatLicenses
      match validator sup.2 compatLicenseExpression with
      | (.error e, st₃) => (.error e, st₃)
      | (.ok _, st₃) =>
        let ret : CompatResult :=
          { ambiguities := full.ambiguities,
            compatibilities := r.identifications,
            queried_license := pyStr input,
            identification := full,
            identified_license := full.identified_license,
            compat_license := compatLicenseExpression,
            compat_support := sup.1 }
        (.ok ret, { st₃ with compat_cache := dictInsert st₃.compat_cache cacheKey ret })

/-- The behaviour of `__validate_license` when `validations` is falsy
(`None` or the empty list): no check, no state change. -/
def trivialValidator : FlameState → String → Except FlameErr Unit × FlameState :=
  fun st _ => (.ok (), st)

/-- `expression_license(_, validations=None, update_dual=dual)`. -/
def expressionLicenseNV (env : Env) (st : FlameState) (input : PyInput)
    (dual : Bool) : Except FlameErr LicenseResult × FlameState :=
  expressionLicenseAux trivialValidator env st input "None" dual

/-- `expression_compatibility_as(_, validations=None, update_dual=dual)`. -/
def expressionCompatNV (env : Env) (st : FlameState) (input : PyInput)
    (dual : Bool) : Except FlameErr CompatResult × FlameState :=
  expressionCompatAux (fun s i => expressionLicenseNV env s i dual)
    trivialValidator env st input "None" dual

/-- `__validate_license` (lines 829-842): nothing when `validations` is
falsy; otherwise SPDX, SCANCODE and RELAXED checks in order, then the OSADL
check, which re-runs the compatibility pipeline with default arguments on
the expression, splits the compatibility expression, aggregates support and
fails when not everything is supported. -/
def validateLicense (env : Env) (st : FlameState) (val : Option (List Validation))
    (expr : String) : Except FlameErr Unit × FlameState :=
  match val with
  | none => (.ok (), st)
  | some vs =>
    if vs.isEmpty then (.ok (), st)
    else
      match (if vs.contains .SPDX then validateLicenseSpdx env expr else .ok ()) with
      | .error e => (.error e, st)
      | .ok _ =>
        match (if vs.contains .SCANCODE then validateLicenseScancode env expr else .ok ()) with
        | .error e => (.error e, st)
        | .ok _ =>
          match (if vs.contains .RELAXED then validateLicenseRelaxed expr else .ok ()) with
          | .error e => (.error e, st)
          | .ok _ =>
            if vs.contains .OSADL then
              match expressionCompatNV env st (.str expr) true with
              | (.error e, st₁) => (.error e, st₁)
              | (.ok cres, st₁) =>
                let pieces :=
                  (((splitCompatGo [] cres.compat_license.data).map
                    (fun l => pyStrip ⟨l⟩)).filter (· ≠ ""))
                let sp := validateCompatibilitiesSupport env st₁ pieces
                if sp.1.supported then (.ok (), sp.2)
                else (.error (.osadlUnsupported sp.1), sp.2)
            else (.ok (), st)

/-- `expression_license` with explicit `validations` and `update_dual`. -/
def expression_license (env : Env) (st : FlameState) (input : PyInput)
    (val : Option (List Validation)) (dual : Bool) :
    Except FlameErr LicenseResult × FlameState :=
  expressionLicenseAux (fun s e => validateLicense env s val e)
    env st input (pyReprVal val) dual

/-- `expression_compatibility_as` with explicit `validations` and
`update_dual`. -/
def expression_compatibility_as (env : Env) (st : FlameState) (input : PyInput)
    (val : Option (List Validation)) (dual : Bool) :
    Except FlameErr CompatResult × FlameState :=
  expressionCompatAux (fun s i => expression_license env s i val dual)
    (fun s e => validateLicense env s val e) env st input (pyReprVal val) dual

/-!
## Claim-side definitions and concrete environments
-/

/-- Decidable equality for `Except`, so that concrete pipeline runs can be
settled by `decide`. -/
instance {ε α : Type} [DecidableEq ε] [DecidableEq α] : DecidableEq (Except ε α)
  | .ok a, .ok b =>
    if h : a = b then .isTrue (by rw [h]) else .isFalse (by intro hc; cases hc; exact h rfl)
  | .ok _, .error _ => .isFalse (by intro hc; cases hc)
  | .error _, .ok _ => .isFalse (by intro hc; cases hc)
  | .error a, .error b =>
    if h : a = b then .isTrue (by rw [h]) else .isFalse (by intro hc; cases hc; exact h rfl)

/-- Claim-side reading of one dual expansion (spec §4.3): for every
newer-version id, substitute it for the triggering token — the leading
token, i.e. its first occurrence — "preserving any trailing qualifier
verbatim"; all other text of the fragment is untouched.  This differs from
`expandDualPiece` only in using first-occurrence substitution where the
source uses `str.replace` (every occurrence). -/
def expandDualPieceSpec (newerList : List String) (lic trimmed : String) : String :=
  let innerNew := newerList.foldl
    (fun acc newer =>
      if acc.isEmpty then [pyReplaceFirst lic trimmed newer]
      else acc ++ ["OR", pyReplaceFirst lic trimmed newer])
    []
  " ( " ++ String.intercalate " " innerNew ++ " ) "

/-- Claim-side per-piece expansion: skip blank pieces, expand dual-headed
fragments, keep everything else verbatim. -/
def dualPieceSpec (duals : List (String × List String)) (lic : String) : Option String :=
  if pyStrip lic = "" then none
  else
    match assocLookup duals (firstToken (pyStrip lic)) with
    | some newerList => some (expandDualPieceSpec newerList lic (firstToken (pyStrip lic)))
    | none => some lic

/-- Claim-side reading of the whole dual-license expander. -/
def dualExpandSpec (duals : List (String × List String)) (expr : String) : String :=
  String.intercalate " " ((splitLicense expr).filterMap (dualPieceSpec duals))

/-- Per-piece expansion exactly as the code performs it (every occurrence
of the triggering token's text replaced), in the same skip/expand/keep
shape as `dualPieceSpec`. -/
def dualPieceAmended (duals : List (String × List String)) (lic : String) : Option String :=
  if pyStrip lic = "" then none
  else
    match assocLookup duals (firstToken (pyStrip lic)) with
    | some newerList => some (expandDualPiece newerList lic (firstToken (pyStrip lic)))
    | none => some lic

/-- The code's dual expansion as a split/map/rejoin: what `updateOrLater`
computes, stated without the fold. -/
def dualExpandAmended (duals : List (String × List String)) (expr : String) : String :=
  String.intercalate " " ((splitLicense expr).filterMap (dualPieceAmended duals))

/-- The update event a piece contributes, if any. -/
def dualUpdateOf (duals : List (String × List String)) (lic : String) :
    Option DualUpdate :=
  if pyStrip lic = "" then none
  else
    match assocLookup duals (firstToken (pyStrip lic)) with
    | some newerList =>
      some { license_expression := lic, license := firstToken (pyStrip lic),
             updates := newerList,
             updated_license := expandDualPiece newerList lic (firstToken (pyStrip lic)) }
    | none => none

/-- The update events of the code's dual expansion, stated without the fold. -/
def dualUpdatesAmended (duals : List (String × List String)) (expr : String) :
    List DualUpdate :=
  (splitLicense expr).filterMap (dualUpdateOf duals)

/-- The alias-rewritten expression of a query (the input of the ambiguity
scan and of the operator pass). -/
def aliasExpr (env : Env) (raw : String) : String :=
  (updateLicenseExpressionHelper env.aliases "alias" (collapseSpaces raw) false).license_expression

/-- The operator-rewritten expression of a query. -/
def opExpr (env : Env) (raw : String) : String :=
  (updateLicenseExpressionHelper env.operators "operator" (aliasExpr env raw) true).license_expression

/-- The text handed to the external parser: the operator-pass result, with
the dual expansion applied when `update_dual` is set.  On parse failure
this is also the best-effort fallback kept as `updated_license`.  Built
only from the alias, operator and duals tables — the ambiguity table plays
no part. -/
def finalText (env : Env) (raw : String) (dual : Bool) : String :=
  if dual then (updateOrLater env.duals (opExpr env raw)).license_expression
  else opExpr env raw

/-- The parse-problem message of lines 502 and 508 (the latter contains the
literal, uninterpolated text `ret["license_expression"]`). -/
def parseProblemMsg (env : Env) (raw : String) (dual : Bool) (msg : String) : String :=
  if dual then
    "Could not parse \"" ++ finalText env raw true ++ "\". Exception: " ++ msg
  else
    "Could not parse \"ret[\"license_expression\"]\". Exception: " ++ msg

/-- `validations` contains no OSADL mode (so `__validate_license` performs
only pure checks and never re-enters the pipeline). -/
def noOsadlB : Option (List Validation) → Bool
  | none => true
  | some vs => !(vs.contains .OSADL)

/-- A minimal environment: empty tables, an identity parse oracle, no
structural errors, empty SPDX and OSADL sets. -/
def env0 : Env :=
  { aliases := [], operators := [], compats := [], duals := [], ambiguities := [],
    parse := fun s => .ok s, scancodeErrors := fun _ => [], spdx := [], osadl := [] }

/-- `env0` with the alias table `BSD3 → BSD-3-Clause`. -/
def envBSD : Env := { env0 with aliases := [("BSD3", "BSD-3-Clause")] }

/-- `env0` with a parse oracle that rejects everything. -/
def envParseFail : Env := { env0 with parse := fun _ => .error "parse fail" }

/-- `env0` with the duals entry for `GPL-2.0-or-later`. -/
def envDual : Env :=
  { env0 with duals := [("GPL-2.0-or-later", ["GPL-2.0-only", "GPL-3.0-only"])] }

/-- `env0` with the ambiguity entry for `GNU`. -/
def envGNU : Env :=
  { env0 with ambiguities := [("GNU", { problem := "problem text", aliases := ["GNU"] })] }

/-- The result of normalising `GNU` under `envGNU` (no validations, dual
expansion on): the ambiguity is surfaced, the token is not resolved. -/
def gnuResult : LicenseResult :=
  { queried_license := "GNU", identified_license := "GNU", identifications := [],
    ambiguities := [{ license := "GNU", ambigous_license := "GNU",
                      problem := "problem text",
                      description := "An ambiguity was identified in \"GNU\". The ambiguous license is \"GNU\". Problem: problem text" }],
    updated_license := "GNU", license_parsed := "GNU", updates := [] }

/-- The state after that query: the result memoized, nothing else touched. -/
def gnuState : FlameState :=
  { license_cache := [("GNU__None__True", gnuResult)], compat_cache := [],
    support_licenses := none, supported_licenses := none, fetches := 0 }

/-!
## Claims
-/

/-- C1: the claim says every token-rewriting pass returns one
IdentificationEvent per needle that actually matched, and that the
`identifications` of `expression_license` hold one entry per rewritten
alias or operator needle.  The code disagrees with itself here: the active
helper `__update_license_expression_helper` creates `replacements` (line
267) and returns it (line 285) but never appends to it — unlike the
retained sibling `__update_license_expression_helper_orig` (lines 300-304),
which records exactly these events — so every identifications list is
empty.  At the failing input `BSD3` the alias needle matches and is
rewritten to `BSD-3-Clause`, yet no event is recorded, at the helper and at
`expression_license` alike. -/
theorem C1_helper_never_records_identifications :
    (∀ (needles : List (String × String)) (tag e : String) (al : Bool),
      (updateLicenseExpressionHelper needles tag e al).identifications = [])
    ∧ (updateLicenseExpressionHelper [("BSD3", "BSD-3-Clause")] "alias" "BSD3" false).license_expression
        = "BSD-3-Clause"
    ∧ (expression_license envBSD initialState (.str "BSD3") none true).1 =
        .ok { queried_license := "BSD3", identified_license := "BSD-3-Clause",
              identifications := [], ambiguities := [],
              updated_license := "BSD-3-Clause", license_parsed := "BSD-3-Clause",
              updates := [] } :=
  ⟨fun _ _ _ _ => rfl, by decide, by decide⟩

/-- C10: in a single pass on `BSD3 BSD3` only the first occurrence is
rewritten: the match of the first occurrence captures and consumes the
separating space as its trailing boundary, the scan resumes after it, and
the second occurrence — now with no leading boundary character available
and not at the start of the string — cannot match.  The raw substitution
shows the consumed boundary; the helper result keeps the second `BSD3`
unrewritten. -/
theorem C10_boundary_consumption :
    pySubAll "BSD3" "BSD-3-Clause" false "BSD3 BSD3" = " BSD-3-Clause  BSD3"
    ∧ (updateLicenseExpressionHelper [("BSD3", "BSD-3-Clause")] "alias" "BSD3 BSD3" false).license_expression
        = "BSD-3-Clause BSD3" := by
  constructor
  · decide
  · decide

/-- C2, counterexample: the claim says that with no validation modes
requested, `expression_license` still returns a result carrying the
best-effort pre-parse text and a parse-failure note.  In fact the raise of
line 524 is guarded only by `update_problem`, so a query whose rewritten
text the parser rejects raises even with `validations=None`: with an
always-failing parse oracle, the query `Y` produces the combined failure
and no result. -/
theorem C2_counterexample :
    expression_license envParseFail initialState (.str "Y") none true =
      (.error (.parseCombined "Y" []
        "Could not parse \"Y\". Exception: parse fail"), initialState) := by
  decide

/-- C3, counterexample: the claim says an erroring query leaves the cache
state unchanged.  A query with OSADL validation requested re-enters the
pipeline through `expression_compatibility_as(license_parsed)` (line 838)
with `validations=None`; that nested, successful sub-query memoizes itself
in both caches before the outer OSADL check fails, so the outer error
leaves the caches changed (the failing query's own key, which renders
`validations` differently, is still absent). -/
theorem C3_counterexample :
    (expression_license env0 initialState (.str "X") (some [.OSADL]) true).1 =
      .error (.osadlUnsupported
        { licenses := [{ license := "X", supported := false }], supported := false })
    ∧ (expression_license env0 initialState (.str "X") (some [.OSADL]) true).2.license_cache ≠ [] := by
  constructor
  · decide
  · decide

/-- C5, counterexample: the claim says each variant of an expanded fragment
is the original fragment with the triggering token substituted "and any
trailing qualifier preserved verbatim".  The source substitutes with
`lic.replace(trimmed_license, newer)` (line 324), which replaces every
occurrence of the token's text anywhere in the fragment; on the fragment
`A WITH A-exception` with the duals entry `A → [B]` the qualifier is
rewritten too, diverging from the claim-side expansion `dualExpandSpec`. -/
theorem C5_counterexample :
    (updateOrLater [("A", ["B"])] "A WITH A-exception").license_expression =
      " ( B WITH B-exception ) "
    ∧ dualExpandSpec [("A", ["B"])] "A WITH A-exception" = " ( B WITH A-exception ) "
    ∧ (updateOrLater [("A", ["B"])] "A WITH A-exception").license_expression ≠
        dualExpandSpec [("A", ["B"])] "A WITH A-exception" := by
  refine ⟨by decide, by decide, by decide⟩

/-- C8: the memoization keys of both caches render the dual-expansion flag
last, so two queries differing only in that flag always get distinct keys
(hence never share an entry in either map), and such queries can indeed
yield different identified licenses: `GPL-2.0-or-later` expands to an OR
group with the flag set and stays itself without it. -/
theorem C8_dual_flag_cache_distinct :
    (∀ q valStr : String, licKey q valStr true ≠ licKey q valStr false)
    ∧ (expression_license envDual initialState (.str "GPL-2.0-or-later") none true).1 ≠
        (expression_license envDual initialState (.str "GPL-2.0-or-later") none false).1 := by
  constructor
  · intro q valStr h
    have hl := congrArg String.length h
    have h₂ : ("__" : String).length = 2 := rfl
    have h₄ : ("True" : String).length = 4 := rfl
    have h₅ : ("False" : String).length = 5 := rfl
    simp only [licKey, pyBool, String.length_append, h₂, h₄, h₅] at hl
    omega
  · decide

/-- The `__update_or_later` fold, characterised piecewise. -/
theorem orLater_foldl (duals : List (String × List String)) (l : List String)
    (acc : List String × List DualUpdate) :
    l.foldl (orLaterStep duals) acc =
      (acc.1 ++ l.filterMap (dualPieceAmended duals),
       acc.2 ++ l.filterMap (dualUpdateOf duals)) := by
  induction l generalizing acc with
  | nil => simp
  | cons lic rest ih =>
    rw [List.foldl_cons, ih]
    simp only [orLaterStep, dualPieceAmended, dualUpdateOf, List.filterMap_cons]
    by_cases h : pyStrip lic = ""
    · simp [h]
    · simp only [h, if_neg, ite_false]
      cases hl : assocLookup duals (firstToken (pyStrip lic)) with
      | none => simp [hl]
      | some nl => simp [hl, List.append_assoc]

/-- C5, amended: the dual-license expander splits on space-bounded
top-level AND/OR and parentheses, drops pieces that strip to nothing,
expands every fragment whose leading token has a duals entry into a single
parenthesised group of one variant per newer-version id joined by `OR`,
records one event per expanded fragment, passes every other piece through
unchanged, and rejoins everything in original order — but each variant is
the fragment with EVERY occurrence of the triggering token's text replaced
(`str.replace`), so a trailing qualifier survives verbatim only when it
does not contain that text. -/
theorem C5_amended_dual_expansion (duals : List (String × List String)) (expr : String) :
    (updateOrLater duals expr).license_expression = dualExpandAmended duals expr
    ∧ (updateOrLater duals expr).updates = dualUpdatesAmended duals expr
    ∧ (updateOrLater duals expr).input_license_expression = expr := by
  have h := orLater_foldl duals (splitLicense expr) ([], [])
  refine ⟨?_, ?_, rfl⟩ <;>
    simp [updateOrLater, dualExpandAmended, dualUpdatesAmended, h]

/-- The RELAXED loop raises exactly at the first multi-word token. -/
theorem relaxedGo_eq_find (l : List String) :
    relaxedGo l =
      match l.find? (fun p => containsSubstr [' '] (pyStrip p).data) with
      | some p => .error (.relaxedMultiWord (pyStrip p))
      | none => .ok () := by
  induction l with
  | nil => rfl
  | cons p rest ih =>
    cases hc : containsSubstr [' '] (pyStrip p).data <;>
      simp [relaxedGo, List.find?_cons, hc, ih]

/-- C7: RELAXED validation fails exactly when some token of the
AND/OR/WITH-split of the expression still contains a space after trimming,
and the failure names the (first) offending multi-word token; when every
split token is a single word it succeeds (returning nothing, so the query
result is unaffected). -/
theorem C7_relaxed_validation (expr : String) :
    (validateLicenseRelaxed expr =
      match (licenseList expr).find? (fun p => containsSubstr [' '] (pyStrip p).data) with
      | some p => .error (.relaxedMultiWord (pyStrip p))
      | none => .ok ())
    ∧ (validateLicenseRelaxed expr = .ok () ↔
        ∀ p ∈ licenseList expr, ¬ (containsSubstr [' '] (pyStrip p).data = true)) := by
  have h := relaxedGo_eq_find (licenseList expr)
  refine ⟨h, ?_⟩
  rw [validateLicenseRelaxed, h]
  cases hf : (licenseList expr).find? (fun p => containsSubstr [' '] (pyStrip p).data) with
  | none =>
    simp only [true_iff]
    intro p hp
    have := List.find?_eq_none.1 hf p hp
    simpa using this
  | some q =>
    simp only []
    constructor
    · intro hok
      cases hok
    · intro hall
      exfalso
      have hq := List.find?_some hf
      have hqm := List.mem_of_find?_eq_some hf
      exact (hall q hqm) hq

/-- Inserting preserves membership up to permutation. -/
theorem insertByLen_perm {α : Type} (x : String × α) (l : List (String × α)) :
    (insertByLen x l).Perm (x :: l) := by
  induction l with
  | nil => exact List.Perm.refl _
  | cons y ys ih =>
    simp only [insertByLen]
    split
    · exact (ih.cons y).trans (List.Perm.swap x y ys)
    · exact List.Perm.refl _

/-- The stable sort permutes the table. -/
theorem sortAscByLen_perm {α : Type} (l : List (String × α)) :
    (sortAscByLen l).Perm l := by
  induction l with
  | nil => exact List.Perm.refl _
  | cons x xs ih =>
    exact (insertByLen_perm x (sortAscByLen xs)).trans (ih.cons x)

/-- Inserting preserves ascending-by-length sortedness. -/
theorem insertByLen_pairwise {α : Type} (x : String × α) (l : List (String × α))
    (h : l.Pairwise (fun a b => a.1.length ≤ b.1.length)) :
    (insertByLen x l).Pairwise (fun a b => a.1.length ≤ b.1.length) := by
  induction l with
  | nil => simp [insertByLen]
  | cons y ys ih =>
    rcases List.pairwise_cons.1 h with ⟨hy, hys⟩
    simp only [insertByLen]
    split
    case isTrue hlt =>
      refine List.pairwise_cons.2 ⟨?_, ih hys⟩
      intro z hz
      rcases List.mem_cons.1 ((insertByLen_perm x ys).mem_iff.1 hz) with rfl | hz₂
      · omega
      · exact hy z hz₂
    case isFalse hge =>
      refine List.pairwise_cons.2 ⟨?_, h⟩
      intro z hz
      rcases List.mem_cons.1 hz with hz | hz
      · subst hz; omega
      · exact le_trans (by omega) (hy z hz)

/-- The stable sort is ascending by key length. -/
theorem sortAscByLen_pairwise {α : Type} (l : List (String × α)) :
    (sortAscByLen l).Pairwise (fun a b => a.1.length ≤ b.1.length) := by
  induction l with
  | nil => simp [sortAscByLen]
  | cons x xs ih => exact insertByLen_pairwise x (sortAscByLen xs) ih

/-- C6: the compiled needle order (`__init_needles`, used by the token
rewriter's pass loop) enumerates the table in non-increasing key length —
pairwise, every earlier needle is at least as long as every later one, the
order is a permutation of the table, and a strictly longer needle always
precedes a strictly shorter one, so a short needle cannot pre-empt a longer
needle containing it (every proper substring is strictly shorter).
Concretely, with the operator table `{| → OR, || → OR}` the rewriter
rewrites `A || B` via the longer needle `||` to `A OR B`. -/
theorem C6_needles_descending_length (needles : List (String × String)) :
    (sortDescByLen needles).Pairwise (fun a b => b.1.length ≤ a.1.length)
    ∧ (sortDescByLen needles).Perm needles
    ∧ (∀ (i j : Nat) (hi : i < (sortDescByLen needles).length)
        (hj : j < (sortDescByLen needles).length),
        ((sortDescByLen needles).get ⟨i, hi⟩).1.length <
          ((sortDescByLen needles).get ⟨j, hj⟩).1.length → j < i)
    ∧ (updateLicenseExpressionHelper [("|", "OR"), ("||", "OR")] "operator" "A || B" true).license_expression
        = "A OR B" := by
  have hpw : (sortDescByLen needles).Pairwise (fun a b => b.1.length ≤ a.1.length) := by
    rw [sortDescByLen, List.pairwise_reverse]
    exact sortAscByLen_pairwise needles
  refine ⟨hpw,
    (List.reverse_perm (sortAscByLen needles)).trans (sortAscByLen_perm needles),
    ?_, by decide⟩
  intro i j hi hj hlt
  rcases lt_trichotomy i j with hij | hij | hij
  · have := (List.pairwise_iff_get.1 hpw) ⟨i, hi⟩ ⟨j, hj⟩ hij
    omega
  · subst hij
    exact absurd hlt (lt_irrefl _)
  · exact hij

/-- C6 witness: on the concrete table `{a → 1, ab → 2}` the compiled order
puts the longer key first, and the third conjunct applies with the shorter
key at index 1 and the longer at index 0. -/
theorem C6_needles_descending_length_witness :
    sortDescByLen [("a", "1"), ("ab", "2")] = [("ab", "2"), ("a", "1")] ∧ (0 : Nat) < 1 :=
  ⟨by decide,
   (C6_needles_descending_length [("a", "1"), ("ab", "2")]).2.2.1 1 0
     (by decide) (by decide) (by decide)⟩

/-- A fold that conditionally appends is a filter-then-map. -/
theorem foldl_append_if {α β : Type} (p : α → Bool) (f : α → β) (l : List α)
    (acc : List β) :
    l.foldl (fun a x => if p x then a ++ [f x] else a) acc =
      acc ++ (l.filter p).map f := by
  induction l generalizing acc with
  | nil => simp
  | cons x xs ih =>
    rw [List.foldl_cons, ih]
    cases hx : p x <;> simp [hx, List.filter_cons, List.append_assoc]

/-- C4: the ambiguity scan walks the reverse index in descending
alias-length order and returns exactly one finding — carrying the current
expression snapshot, the canonical ambiguous id and the stored problem text
composed into a description — for EVERY alias whose (" or "-normalised)
text occurs delimited by whitespace or string ends in the alias-rewritten
expression; and it never rewrites the expression: on a successful query
the parsed text is obtained from the alias → operator → dual chain alone
(`finalText` mentions no ambiguity data), while the findings are computed
on the alias-pass output. -/
theorem C4_ambiguity_scan :
    (∀ (ambs : List (String × AmbigEntry)) (expr : String),
      ambiguityFindings ambs expr =
        ((sortDescByLen (ambigAliasMap ambs)).filter
          (fun av => ambigSearch (pyReplace av.1 " or " " OR ").data expr.data)).map
          (fun av => mkAmbiguity (ambigAliasMap ambs) ambs expr av.1))
    ∧ (∀ (env : Env) (st : FlameState) (raw : String) (dual : Bool)
        (r : LicenseResult) (st₂ : FlameState),
        assocLookup st.license_cache (licKey (collapseSpaces raw) "None" dual) = none →
        expressionLicenseNV env st (.str raw) dual = (.ok r, st₂) →
        env.parse (finalText env raw dual) = .ok r.license_parsed ∧
          r.ambiguities = ambiguityFindings env.ambiguities (aliasExpr env raw)) := by
  constructor
  · intro ambs expr
    have h := foldl_append_if
      (fun av => ambigSearch (pyReplace av.1 " or " " OR ").data expr.data)
      (fun av => mkAmbiguity (ambigAliasMap ambs) ambs expr av.1)
      (sortDescByLen (ambigAliasMap ambs)) []
    simpa [ambiguityFindings] using h
  · intro env st raw dual r st₂ hmiss hrun
    cases dual
    case false =>
      simp only [expressionLicenseNV, expressionLicenseAux, trivialValidator,
        hmiss, Bool.false_eq_true, if_false, ite_false] at hrun
      cases hp : env.parse
          ((updateLicenseExpressionHelper env.operators "operator"
            ((updateLicenseExpressionHelper env.aliases "alias" (collapseSpaces raw)
              false).license_expression) true).license_expression) with
      | error e =>
        rw [hp] at hrun
        simp at hrun
      | ok p =>
        rw [hp] at hrun
        simp only [Prod.mk.injEq, Except.ok.injEq] at hrun
        obtain ⟨hr, -⟩ := hrun
        subst hr
        refine ⟨?_, rfl⟩
        simpa [finalText, opExpr, aliasExpr] using hp
    case true =>
      simp only [expressionLicenseNV, expressionLicenseAux, trivialValidator,
        hmiss, if_true, ite_true] at hrun
      cases hp : env.parse
          ((updateOrLater env.duals
            ((updateLicenseExpressionHelper env.operators "operator"
              ((updateLicenseExpressionHelper env.aliases "alias" (collapseSpaces raw)
                false).license_expression) true).license_expression)).license_expression) with
      | error e =>
        rw [hp] at hrun
        simp at hrun
      | ok p =>
        rw [hp] at hrun
        simp only [Prod.mk.injEq, Except.ok.injEq] at hrun
        obtain ⟨hr, -⟩ := hrun
        subst hr
        refine ⟨?_, rfl⟩
        simpa [finalText, opExpr, aliasExpr] using hp

/-- C4 witness: the query `GNU` under an ambiguity table for `GNU` parses
the unmodified token (the scan rewrote nothing) and reports exactly the one
finding computed on the alias-pass output. -/
theorem C4_ambiguity_scan_witness :
    envGNU.parse (finalText envGNU "GNU" true) = .ok gnuResult.license_parsed ∧
      gnuResult.ambiguities = ambiguityFindings envGNU.ambiguities (aliasExpr envGNU "GNU") :=
  C4_ambiguity_scan.2 envGNU initialState "GNU" true gnuResult gnuState
    (by decide) (by decide)

/-- The per-token support check touches only `support_licenses` and the
fetch counter. -/
theorem vcs_fields (env : Env) (st : FlameState) (lic : String) :
    (validateCompatibilitySupport env st lic).2.supported_licenses = st.supported_licenses
    ∧ (validateCompatibilitySupport env st lic).2.license_cache = st.license_cache
    ∧ (validateCompatibilitySupport env st lic).2.compat_cache = st.compat_cache := by
  unfold validateCompatibilitySupport
  dsimp only
  split <;> exact ⟨rfl, rfl, rfl⟩

/-- The support aggregation touches only `support_licenses` and the fetch
counter. -/
theorem vcssGo_fields (env : Env) (lics : List String) (st : FlameState) :
    (vcssGo env lics st).2.2.supported_licenses = st.supported_licenses
    ∧ (vcssGo env lics st).2.2.license_cache = st.license_cache
    ∧ (vcssGo env lics st).2.2.compat_cache = st.compat_cache := by
  induction lics generalizing st with
  | nil => exact ⟨rfl, rfl, rfl⟩
  | cons lic rest ih =>
    simp only [vcssGo]
    obtain ⟨h₁, h₂, h₃⟩ := ih (validateCompatibilitySupport env st lic).2
    obtain ⟨g₁, g₂, g₃⟩ := vcs_fields env st lic
    exact ⟨h₁.trans g₁, h₂.trans g₂, h₃.trans g₃⟩

/-- While `supported_licenses` is `None`, every per-token check re-fetches:
the aggregation over `n` tokens performs exactly `n` external fetches and
leaves `supported_licenses` as `None`. -/
theorem vcssGo_fetches (env : Env) (lics : List String) (st : FlameState)
    (h : st.supported_licenses = none) :
    (vcssGo env lics st).2.2.supported_licenses = none
    ∧ (vcssGo env lics st).2.2.fetches = st.fetches + lics.length := by
  induction lics generalizing st with
  | nil => exact ⟨h, by simp [vcssGo]⟩
  | cons lic rest ih =>
    simp only [vcssGo]
    have hsup : (validateCompatibilitySupport env st lic).2.supported_licenses = none :=
      (vcs_fields env st lic).1.trans h
    have hfet : (validateCompatibilitySupport env st lic).2.fetches = st.fetches + 1 := by
      simp [validateCompatibilitySupport, h]
    obtain ⟨i₁, i₂⟩ := ih _ hsup
    refine ⟨i₁, ?_⟩
    rw [i₂, hfet, List.length_cons]
    omega

/-- Field preservation restated on `__validate_compatibilities_support`. -/
theorem vcss_fields (env : Env) (st : FlameState) (lics : List String) :
    (validateCompatibilitiesSupport env st lics).2.supported_licenses = st.supported_licenses
    ∧ (validateCompatibilitiesSupport env st lics).2.license_cache = st.license_cache
    ∧ (validateCompatibilitiesSupport env st lics).2.compat_cache = st.compat_cache :=
  vcssGo_fields env lics st

/-- If the validator preserves `supported_licenses`, so does the whole
normalization entry point. -/
theorem auxLic_supported
    (validator : FlameState → String → Except FlameErr Unit × FlameState)
    (hv : ∀ s e, (validator s e).2.supported_licenses = s.supported_licenses)
    (env : Env) (st : FlameState) (input : PyInput) (valStr : String) (dual : Bool) :
    (expressionLicenseAux validator env st input valStr dual).2.supported_licenses
      = st.supported_licenses := by
  unfold expressionLicenseAux
  cases input with
  | nonStr t s => rfl
  | str raw =>
    simp only []
    split
    next cached _ => rfl
    next _ =>
      split
      next e st₁ heq =>
        exact (congrArg (fun p => p.2.supported_licenses) heq).symm.trans (hv st _)
      next u st₁ heq =>
        split <;>
          exact (congrArg (fun p => p.2.supported_licenses) heq).symm.trans (hv st _)

/-- If the validator preserves the compatibility cache, the normalization
entry point does too (it only ever inserts into the license cache). -/
theorem auxLic_caches
    (validator : FlameState → String → Except FlameErr Unit × FlameState)
    (hv : ∀ s e, (validator s e).2.compat_cache = s.compat_cache)
    (env : Env) (st : FlameState) (input : PyInput) (valStr : String) (dual : Bool) :
    (expressionLicenseAux validator env st input valStr dual).2.compat_cache
      = st.compat_cache := by
  unfold expressionLicenseAux
  cases input with
  | nonStr t s => rfl
  | str raw =>
    simp only []
    split
    next cached _ => rfl
    next _ =>
      split
      next e st₁ heq =>
        exact (congrArg (fun p => p.2.compat_cache) heq).symm.trans (hv st _)
      next u st₁ heq =>
        split <;>
          exact (congrArg (fun p => p.2.compat_cache) heq).symm.trans (hv st _)

/-- With a validator that leaves the state unchanged, an erroring
normalization query leaves the whole state unchanged: every raise happens
before the one cache insertion. -/
theorem auxLic_err_state
    (validator : FlameState → String → Except FlameErr Unit × FlameState)
    (hv : ∀ s e, (validator s e).2 = s)
    (env : Env) (st : FlameState) (input : PyInput) (valStr : String) (dual : Bool)
    (e : FlameErr) (st₂ : FlameState)
    (hrun : expressionLicenseAux validator env st input valStr dual = (.error e, st₂)) :
    st₂ = st := by
  cases input with
  | nonStr t s =>
    unfold expressionLicenseAux at hrun
    injection hrun with h₁ h₂
    exact h₂.symm
  | str raw =>
    unfold expressionLicenseAux at hrun
    dsimp only at hrun
    split at hrun
    · simp at hrun
    · split at hrun
      next e' st₁ heq =>
        injection hrun with h₁ h₂
        exact h₂.symm.trans ((congrArg Prod.snd heq).symm.trans (hv st _))
      next u st₁ heq =>
        split at hrun
        · injection hrun with h₁ h₂
          exact h₂.symm.trans ((congrArg Prod.snd heq).symm.trans (hv st _))
        · simp at hrun

/-- If normalization and validation preserve `supported_licenses`, so does
the compatibility entry point. -/
theorem auxCompat_supported
    (exprLic : FlameState → PyInput → Except FlameErr LicenseResult × FlameState)
    (validator : FlameState → String → Except FlameErr Unit × FlameState)
    (hex : ∀ s i, (exprLic s i).2.supported_licenses = s.supported_licenses)
    (hv : ∀ s e, (validator s e).2.supported_licenses = s.supported_licenses)
    (env : Env) (st : FlameState) (input : PyInput) (valStr : String) (dual : Bool) :
    (expressionCompatAux exprLic validator env st input valStr dual).2.supported_licenses
      = st.supported_licenses := by
  unfold expressionCompatAux
  dsimp only
  split
  next cached _ => rfl
  next _ =>
    split
    next e st₁ heq =>
      exact (congrArg (fun p => p.2.supported_licenses) heq).symm.trans (hex st _)
    next full st₁ heq =>
      have hst₁ : st₁.supported_licenses = st.supported_licenses :=
        (congrArg (fun p => p.2.supported_licenses) heq).symm.trans (hex st _)
      split
      next e st₃ heq₂ =>
        have h₃ := congrArg (fun p => p.2.supported_licenses) heq₂
        dsimp only at h₃
        rw [hv] at h₃
        rw [(vcss_fields env st₁ _).1] at h₃
        exact h₃.symm.trans hst₁
      next u st₃ heq₂ =>
        have h₃ := congrArg (fun p => p.2.supported_licenses) heq₂
        dsimp only at h₃
        rw [hv] at h₃
        rw [(vcss_fields env st₁ _).1] at h₃
        exact h₃.symm.trans hst₁

/-- With a compat-cache-preserving normalization and a state-preserving
validator, an erroring compatibility query leaves the compat cache
unchanged: its one insertion happens after every possible raise. -/
theorem auxCompat_err_compat_cache
    (exprLic : FlameState → PyInput → Except FlameErr LicenseResult × FlameState)
    (validator : FlameState → String → Except FlameErr Unit × FlameState)
    (hex : ∀ s i, (exprLic s i).2.compat_cache = s.compat_cache)
    (hv : ∀ s e, (validator s e).2 = s)
    (env : Env) (st : FlameState) (input : PyInput) (valStr : String) (dual : Bool)
    (e : FlameErr) (st₂ : FlameState)
    (hrun : expressionCompatAux exprLic validator env st input valStr dual = (.error e, st₂)) :
    st₂.compat_cache = st.compat_cache := by
  unfold expressionCompatAux at hrun
  dsimp only at hrun
  split at hrun
  · exact Except.noConfusion (congrArg Prod.fst hrun)
  · split at hrun
    next e' st₁ heq =>
      injection hrun with h₁ h₂
      rw [← h₂]
      exact (congrArg (fun p => p.2.compat_cache) heq).symm.trans (hex st _)
    next full st₁ heq =>
      have hst₁ : st₁.compat_cache = st.compat_cache :=
        (congrArg (fun p => p.2.compat_cache) heq).symm.trans (hex st _)
      split at hrun
      next e' st₃ heq₂ =>
        injection hrun with h₁ h₂
        rw [← h₂]
        have h₃ := congrArg (fun p => p.2.compat_cache) heq₂
        dsimp only at h₃
        rw [hv] at h₃
        rw [(vcss_fields env st₁ _).2.2] at h₃
        exact h₃.symm.trans hst₁
      next u st₃ heq₂ =>
        exact Except.noConfusion (congrArg Prod.fst hrun)

/-- `expression_license(_, None, dual)` preserves `supported_licenses`. -/
theorem expressionLicenseNV_supported (env : Env) (st : FlameState) (input : PyInput)
    (dual : Bool) :
    (expressionLicenseNV env st input dual).2.supported_licenses = st.supported_licenses :=
  auxLic_supported trivialValidator (fun _ _ => rfl) env st input "None" dual

/-- `expression_compatibility_as(_, None, dual)` preserves `supported_licenses`. -/
theorem expressionCompatNV_supported (env : Env) (st : FlameState) (input : PyInput)
    (dual : Bool) :
    (expressionCompatNV env st input dual).2.supported_licenses = st.supported_licenses :=
  auxCompat_supported (fun s i => expressionLicenseNV env s i dual) trivialValidator
    (fun s i => expressionLicenseNV_supported env s i dual) (fun _ _ => rfl)
    env st input "None" dual

/-- `__validate_license` never assigns `supported_licenses` either. -/
theorem validateLicense_supported (env : Env) (val : Option (List Validation)) :
    ∀ st e, (validateLicense env st val e).2.supported_licenses = st.supported_licenses := by
  intro st e
  unfold validateLicense
  cases val with
  | none => rfl
  | some vs =>
    dsimp only
    split
    · rfl
    · split
      · rfl
      · split
        · rfl
        · split
          · rfl
          · split
            · split
              next e₁ st₁ heq =>
                exact (congrArg (fun p => p.2.supported_licenses) heq).symm.trans
                  (expressionCompatNV_supported env st _ true)
              next cres st₁ heq =>
                have h₁ : st₁.supported_licenses = st.supported_licenses :=
                  (congrArg (fun p => p.2.supported_licenses) heq).symm.trans
                    (expressionCompatNV_supported env st _ true)
                split
                · exact ((vcss_fields env st₁ _).1).trans h₁
                · exact ((vcss_fields env st₁ _).1).trans h₁
            · rfl

/-- `expression_license` preserves `supported_licenses` for every argument
combination (including OSADL validation). -/
theorem expression_license_supported (env : Env) (st : FlameState) (input : PyInput)
    (val : Option (List Validation)) (dual : Bool) :
    (expression_license env st input val dual).2.supported_licenses = st.supported_licenses :=
  auxLic_supported (fun s e => validateLicense env s val e)
    (fun s e => validateLicense_supported env val s e) env st input (pyReprVal val) dual

/-- `expression_compatibility_as` preserves `supported_licenses` as well. -/
theorem expression_compatibility_as_supported (env : Env) (st : FlameState)
    (input : PyInput) (val : Option (List Validation)) (dual : Bool) :
    (expression_compatibility_as env st input val dual).2.supported_licenses
      = st.supported_licenses :=
  auxCompat_supported (fun s i => expression_license env s i val dual)
    (fun s e => validateLicense env s val e)
    (fun s i => expression_license_supported env s i val dual)
    (fun s e => validateLicense_supported env val s e) env st input (pyReprVal val) dual

/-- C9: `supported_licenses` starts as `None` at construction and no
operation ever assigns it (the lazily fetched OSADL set goes to the
differently named `support_licenses`), so the guard of
`__validate_compatibility_support` stays true forever and the set is
re-fetched from the matrix capability on every per-token check: aggregating
over `n` tokens performs exactly `n` fetches, and both public entry points
leave `supported_licenses` exactly as they found it. -/
theorem C9_supported_licenses_never_assigned (env : Env) (st : FlameState)
    (lics : List String) (h : st.supported_licenses = none) :
    initialState.supported_licenses = none
    ∧ (validateCompatibilitiesSupport env st lics).2.supported_licenses = none
    ∧ (validateCompatibilitiesSupport env st lics).2.fetches = st.fetches + lics.length
    ∧ (∀ (input : PyInput) (val : Option (List Validation)) (dual : Bool),
        (expression_license env st input val dual).2.supported_licenses
          = st.supported_licenses)
    ∧ (∀ (input : PyInput) (val : Option (List Validation)) (dual : Bool),
        (expression_compatibility_as env st input val dual).2.supported_licenses
          = st.supported_licenses) := by
  obtain ⟨f₁, f₂⟩ := vcssGo_fetches env lics st h
  exact ⟨rfl, f₁, f₂,
    fun input val dual => expression_license_supported env st input val dual,
    fun input val dual => expression_compatibility_as_supported env st input val dual⟩

/-- C9 witness: from the freshly constructed state, checking two tokens
fetches the OSADL set twice and still leaves `supported_licenses` unset. -/
theorem C9_supported_licenses_never_assigned_witness :
    (validateCompatibilitiesSupport env0 initialState ["A", "B"]).2.supported_licenses = none
    ∧ (validateCompatibilitiesSupport env0 initialState ["A", "B"]).2.fetches = 2 := by
  have h := C9_supported_licenses_never_assigned env0 initialState ["A", "B"] rfl
  exact ⟨h.2.1, h.2.2.1⟩

/-- Without OSADL among the modes, `__validate_license` is pure in the
state. -/
theorem validateLicense_noOsadl_pure (env : Env) (val : Option (List Validation))
    (hno : noOsadlB val = true) :
    ∀ st e, (validateLicense env st val e).2 = st := by
  intro st e
  unfold validateLicense
  cases val with
  | none => rfl
  | some vs =>
    have hc : vs.contains Validation.OSADL = false := by
      simpa [noOsadlB] using hno
    dsimp only
    split
    · rfl
    · split
      · rfl
      · split
        · rfl
        · split
          · rfl
          · rw [hc]
            simp

/-- C3, amended: a failing query is never memoized.  When the requested
modes do not include OSADL, an erroring `expression_license` call leaves
the whole state (both caches included) unchanged, and an erroring
`expression_compatibility_as` call leaves its compat cache unchanged (its
successful inner normalization may still be memoized in the license
cache).  When OSADL validation is requested, nested successful sub-queries
may additionally memoize themselves under their own keys even though the
failing query is not cached (see the counterexample). -/
theorem C3_amended_no_memoization_on_error (env : Env) (st : FlameState)
    (input : PyInput) (val : Option (List Validation)) (dual : Bool)
    (hno : noOsadlB val = true) :
    (∀ (e : FlameErr) (st₂ : FlameState),
      expression_license env st input val dual = (.error e, st₂) → st₂ = st)
    ∧ (∀ (e : FlameErr) (st₂ : FlameState),
      expression_compatibility_as env st input val dual = (.error e, st₂) →
        st₂.compat_cache = st.compat_cache) := by
  have hpure := validateLicense_noOsadl_pure env val hno
  refine ⟨fun e st₂ hrun => ?_, fun e st₂ hrun => ?_⟩
  · exact auxLic_err_state (fun s ex => validateLicense env s val ex)
      (fun s ex => hpure s ex) env st input (pyReprVal val) dual e st₂ hrun
  · refine auxCompat_err_compat_cache (fun s i => expression_license env s i val dual)
      (fun s ex => validateLicense env s val ex) ?_ (fun s ex => hpure s ex)
      env st input (pyReprVal val) dual e st₂ hrun
    intro s i
    exact auxLic_caches (fun s' ex => validateLicense env s' val ex)
      (fun s' ex => congrArg FlameState.compat_cache (hpure s' ex))
      env s i (pyReprVal val) dual

/-- C3 witness: a parse-failing query with no validation modes errors and
leaves the fresh state untouched. -/
theorem C3_amended_no_memoization_on_error_witness :
    noOsadlB (none : Option (List Validation)) = true
    ∧ (expression_license envParseFail initialState (.str "Z") none true).2 = initialState := by
  refine ⟨rfl, ?_⟩
  have hrun : expression_license envParseFail initialState (.str "Z") none true =
      (.error (.parseCombined "Z" []
        "Could not parse \"Z\". Exception: parse fail"), initialState) := by decide
  have hrun₂ : expression_license envParseFail initialState (.str "Z") none true =
      (.error (.parseCombined "Z" []
        "Could not parse \"Z\". Exception: parse fail"),
       (expression_license envParseFail initialState (.str "Z") none true).2) := by
    rw [hrun]
  exact (C3_amended_no_memoization_on_error envParseFail initialState
    (.str "Z") none true rfl).1 _ _ hrun₂

/-- C2, amended: when the external parser rejects the fully rewritten text,
`expression_license` never returns a fallback result: whether or not
validation modes were requested, as long as validation itself passes, the
call raises one combined failure built from the normalized query, the
pending ambiguity findings and the parse problem (whose text embeds the
best-effort pre-parse expression in the dual branch and a literal
`ret["license_expression"]` in the other); the pre-parse text serves only
as the value handed to validation and as message material. -/
theorem C2_amended_parse_failure_always_raises (env : Env) (st : FlameState)
    (raw : String) (val : Option (List Validation)) (dual : Bool)
    (msg : String) (st₁ : FlameState)
    (hmiss : assocLookup st.license_cache
      (licKey (collapseSpaces raw) (pyReprVal val) dual) = none)
    (hparse : env.parse (finalText env raw dual) = .error msg)
    (hval : validateLicense env st val (finalText env raw dual) = (.ok (), st₁)) :
    expression_license env st (.str raw) val dual =
      (.error (.parseCombined (collapseSpaces raw)
        (ambiguityFindings env.ambiguities (aliasExpr env raw))
        (parseProblemMsg env raw dual msg)), st₁) := by
  cases dual
  case false =>
    simp only [finalText, opExpr, aliasExpr, Bool.false_eq_true, if_false] at hparse hval
    simp only [parseProblemMsg, Bool.false_eq_true, if_false]
    simp only [expression_license, expressionLicenseAux, aliasExpr, hmiss, hparse,
      Bool.false_eq_true, if_false, hval]
  case true =>
    simp only [finalText, opExpr, aliasExpr, if_true] at hparse hval
    simp only [parseProblemMsg, finalText, opExpr, aliasExpr, if_true]
    simp only [expression_license, expressionLicenseAux, aliasExpr, hmiss, hparse,
      if_true, hval]

/-- C2 witness: a concrete parse-failing query with no validation modes
raises the combined failure with the fallback text in the message and the
(empty) ambiguity findings attached. -/
theorem C2_amended_parse_failure_always_raises_witness :
    assocLookup initialState.license_cache
      (licKey (collapseSpaces "W") (pyReprVal none) true) = none
    ∧ expression_license envParseFail initialState (.str "W") none true =
        (.error (.parseCombined (collapseSpaces "W")
          (ambiguityFindings envParseFail.ambiguities (aliasExpr envParseFail "W"))
          (parseProblemMsg envParseFail "W" true "parse fail")), initialState) := by
  refine ⟨rfl, ?_⟩
  exact C2_amended_parse_failure_always_raises envParseFail initialState "W" none true
    "parse fail" initialState rfl (by decide) rfl

end Flame
